import Mathlib

/-!
Verification of the core of dynagen's dynamips_lib.py: the request/reply
engine (send), the interface compatibility validator (validate_connect),
the link orchestrator (gen_connect) and console-port assignment
(Router.__setconsole / checkconsole), shallowly embedded in Lean.
Lines of reply text and raw socket bytes are modelled as lists of
characters; the Python byte stream is text in the original (Python 2
str), so this is faithful.
-/

namespace Dynagen

/-- A logical reply line (without its terminating CRLF), as characters. -/
abbrev Line := List Char

/-- Push a character onto the first piece of a split result; used to
mirror how a non-separator character extends the current piece. -/
def consFirst (c : Char) : List (List Char) → List (List Char)
  | [] => [[c]]
  | l :: ls => (c :: l) :: ls

/-- Python str.split with separator CRLF: leftmost-first,
non-overlapping. Mirrors buf.split of the source. -/
def splitCRLF : List Char → List (List Char)
  | [] => [[]]
  | [c] => [[c]]
  | c1 :: c2 :: rest =>
    if c1 = '\r' ∧ c2 = '\n' then [] :: splitCRLF rest
    else consFirst c1 (splitCRLF (c2 :: rest))

/-- data[-1][:4] == '100-' : the success terminator test of the source. -/
def starts100 (l : Line) : Bool := l.take 4 == ['1', '0', '0', '-']

/-- error_re.search(data[-1]) with error_re = "^2[0-9][0-9]-" (anchored,
no multiline, so it can only match at the start of the line). -/
def errorMatch (l : Line) : Bool :=
  match l with
  | c0 :: c1 :: c2 :: c3 :: _ => c0 == '2' && c1.isDigit && c2.isDigit && c3 == '-'
  | _ => false

/-- The source's `if data[-1] == '': data.pop()` step. -/
def trimTrailEmpty (ds : List Line) : List Line :=
  if ds.getLast? = some [] then ds.dropLast else ds

/-- Outcome of one call of send's receive loop. -/
inductive SendResult where
  /-- the loop broke on a 100- final line and returned data -/
  | ok (lines : List Line)
  /-- raise DynamipsError(data[-1]) on an error-coded final line -/
  | protoErr (msg : Line)
  /-- raise DynamipsError("no data") after the loop -/
  | noData
  /-- uncaught IndexError from buf[-1] on the empty buffer -/
  | indexError
  /-- the loop spins forever on a closed connection with a partial line -/
  | hang
  deriving DecidableEq, Repr

/-- What processing one newline-terminated buffer does: either the loop
halts with a result or continues with the grown data list. -/
inductive StepRes where
  | halt (r : SendResult)
  | next (data : List Line)
  deriving DecidableEq, Repr

/-- The terminator tests of send's loop, applied to the accumulated data
list: only the LAST line is inspected, first for the success terminator,
then for the error pattern; any other last line keeps the loop reading.
The noData branch mirrors the source's post-loop len(data) == 0 check,
and the none branch mirrors the IndexError data[-1] would raise on an
empty list. -/
def procData (d2 : List Line) : StepRes :=
  match d2.getLast? with
  | none => .halt .indexError
  | some last =>
    if starts100 last then .halt (if d2.isEmpty then .noData else .ok d2)
    else if errorMatch last then .halt (.protoErr last)
    else .next d2

/-- The body of send's loop once the buffer ends in a newline: split on
CRLF, drop a single trailing empty artifact, then run the terminator
tests on the grown data list. -/
def processBuf (data : List Line) (buf2 : List Char) : StepRes :=
  procData (trimTrailEmpty (data ++ splitCRLF buf2))

/-- send's receive loop. Each list element is what one recv call
returns; after the list is exhausted the peer has closed the connection
and recv returns the empty string forever, which makes the source
either evaluate buf[-1] on an empty buffer (IndexError) or loop
forever on a partial line. -/
def recvLoop (data : List Line) (buf : List Char) : List (List Char) → SendResult
  | [] =>
    if buf.isEmpty then .indexError
    else if buf.getLast? ≠ some '\n' then .hang
    else
      match processBuf data buf with
      | .halt r => r
      | .next _ => .indexError
  | chunk :: rest =>
    let buf2 := buf ++ chunk
    if buf2.isEmpty then .indexError
    else if buf2.getLast? ≠ some '\n' then recvLoop data buf2 rest
    else
      match processBuf data buf2 with
      | .halt r => r
      | .next d2 => recvLoop d2 [] rest

/-- The reply-reassembly part of the source's send, as a function of the
chunking the socket delivered. -/
def send (chunks : List (List Char)) : SendResult := recvLoop [] [] chunks

/-- The wire image of a list of reply lines: each line followed by CRLF. -/
def joinLines (ls : List Line) : List Char :=
  (ls.map (fun l => l ++ ['\r', '\n'])).flatten

/-! ### Lemmas about splitting and joining -/

lemma joinLines_nil : joinLines [] = [] := rfl

lemma joinLines_cons (l : Line) (ls : List Line) :
    joinLines (l :: ls) = l ++ '\r' :: '\n' :: joinLines ls := by
  simp [joinLines]

lemma joinLines_ne_nil (ls : List Line) (h : ls ≠ []) : joinLines ls ≠ [] := by
  cases ls with
  | nil => exact absurd rfl h
  | cons l ls => rw [joinLines_cons]; simp

lemma getLast?_append_right {α : Type} (l1 l2 : List α) (h : l2 ≠ []) :
    (l1 ++ l2).getLast? = l2.getLast? := by
  obtain ⟨a, ha⟩ := Option.isSome_iff_exists.mp (List.getLast?_isSome.mpr h)
  rw [List.getLast?_append, ha]
  rfl

lemma getLast?_joinLines (ls : List Line) (h : ls ≠ []) :
    (joinLines ls).getLast? = some '\n' := by
  induction ls with
  | nil => exact absurd rfl h
  | cons l ls ih =>
    rw [joinLines_cons]
    by_cases h2 : ls = []
    · subst h2
      rw [show l ++ '\r' :: '\n' :: joinLines [] = (l ++ ['\r']) ++ ['\n'] by
        rw [joinLines_nil]; simp]
      exact List.getLast?_concat _
    · rw [show l ++ '\r' :: '\n' :: joinLines ls = (l ++ ['\r', '\n']) ++ joinLines ls by
        simp]
      rw [getLast?_append_right _ _ (joinLines_ne_nil ls h2)]
      exact ih h2

lemma splitCRLF_line (l : Line) (s : List Char) (hnl : '\n' ∉ l) :
    splitCRLF (l ++ '\r' :: '\n' :: s) = l :: splitCRLF s := by
  induction l with
  | nil =>
    show splitCRLF ('\r' :: '\n' :: s) = [] :: splitCRLF s
    simp [splitCRLF]
  | cons c l ih =>
    have hrec : splitCRLF (l ++ '\r' :: '\n' :: s) = l :: splitCRLF s :=
      ih (fun h => hnl (List.mem_cons_of_mem c h))
    cases l with
    | nil =>
      show splitCRLF (c :: '\r' :: '\n' :: s) = [c] :: splitCRLF s
      have hne : ¬(c = '\r' ∧ ('\r' : Char) = '\n') := fun h => absurd h.2 (by decide)
      simp [splitCRLF, if_neg hne, consFirst]
    | cons c2 l2 =>
      show splitCRLF (c :: c2 :: (l2 ++ '\r' :: '\n' :: s)) = (c :: c2 :: l2) :: splitCRLF s
      have hc2 : c2 ≠ '\n' := fun h =>
        hnl (by rw [← h] at *; exact List.mem_cons_of_mem c (List.mem_cons_self c2 l2))
      have hne : ¬(c = '\r' ∧ c2 = '\n') := fun h => absurd h.2 hc2
      simp only [splitCRLF, if_neg hne]
      rw [show c2 :: (l2 ++ '\r' :: '\n' :: s) = (c2 :: l2) ++ '\r' :: '\n' :: s from rfl,
        hrec, consFirst]

lemma splitCRLF_joinLines (ls : List Line) (hnl : ∀ l ∈ ls, '\n' ∉ l) :
    splitCRLF (joinLines ls) = ls ++ [[]] := by
  induction ls with
  | nil => rfl
  | cons l ls ih =>
    rw [joinLines_cons, splitCRLF_line l _ (hnl l (List.mem_cons_self l ls)),
      ih (fun x hx => hnl x (List.mem_cons_of_mem l hx))]
    rfl

/-- Any newline-terminated prefix of the wire image of a list of lines
is the wire image of a nonempty prefix of those lines. -/
lemma joinLines_split : ∀ (rem : List Line), (∀ l ∈ rem, '\n' ∉ l) →
    ∀ (p s : List Char), p ++ s = joinLines rem → p ≠ [] → p.getLast? = some '\n' →
    ∃ rem1 rem2, rem = rem1 ++ rem2 ∧ rem1 ≠ [] ∧ p = joinLines rem1 ∧ s = joinLines rem2 := by
  intro rem
  induction rem with
  | nil =>
    intro _ p s hps hpne _
    rw [joinLines_nil] at hps
    exact absurd (List.append_eq_nil.mp hps).1 hpne
  | cons l rem ih =>
    intro hnl p s hps hpne hplast
    rw [joinLines_cons,
      show l ++ '\r' :: '\n' :: joinLines rem = (l ++ ['\r', '\n']) ++ joinLines rem by
        simp] at hps
    rcases List.append_eq_append_iff.mp hps with ⟨a, ha1, ha2⟩ | ⟨c, hc1, hc2⟩
    · cases a with
      | nil =>
        rw [List.append_nil] at ha1
        refine ⟨[l], rem, rfl, by simp, ?_, ?_⟩
        · rw [← ha1, joinLines_cons, joinLines_nil]
        · rw [ha2]; rfl
      | cons a0 a1 =>
        exfalso
        have hgl : p.getLast hpne = '\n' := by
          have h2 := List.getLast?_eq_getLast_of_ne_nil hpne
          rw [hplast] at h2
          exact (Option.some_inj.mp h2).symm
        have hmem : '\n' ∈ p := hgl ▸ List.getLast_mem hpne
        have hd : (l ++ ['\r', '\n']).dropLast = p ++ (a0 :: a1).dropLast := by
          rw [ha1]
          exact List.dropLast_append_of_ne_nil _ (by simp)
        have hd2 : (l ++ ['\r', '\n']).dropLast = l ++ ['\r'] := by
          rw [show l ++ ['\r', '\n'] = (l ++ ['\r']) ++ ['\n'] by simp]
          exact List.dropLast_concat
        have hmem2 : '\n' ∈ l ++ ['\r'] := by
          rw [← hd2, hd]
          exact List.mem_append_left _ hmem
        rcases List.mem_append.mp hmem2 with h | h
        · exact hnl l (List.mem_cons_self l rem) h
        · simp at h
    · cases c with
      | nil =>
        rw [List.append_nil] at hc1
        rw [List.nil_append] at hc2
        refine ⟨[l], rem, rfl, by simp, ?_, hc2.symm⟩
        rw [hc1, joinLines_cons, joinLines_nil]
      | cons c0 c1 =>
        have hcne : (c0 :: c1) ≠ ([] : List Char) := by simp
        have hclast : (c0 :: c1).getLast? = some '\n' := by
          rw [← getLast?_append_right (l ++ ['\r', '\n']) (c0 :: c1) hcne, ← hc1]
          exact hplast
        obtain ⟨rem1, rem2, hr, hr1, hp1, hs1⟩ :=
          ih (fun x hx => hnl x (List.mem_cons_of_mem l hx)) (c0 :: c1) s hc2.symm hcne hclast
        refine ⟨l :: rem1, rem2, by rw [hr]; rfl, by simp, ?_, hs1⟩
        rw [hc1, hp1, joinLines_cons]
        simp

/-! ### Evaluating one processing step -/

lemma procData_eq (d2 : List Line) (h : d2 ≠ []) :
    procData d2 =
      if starts100 (d2.getLast h) then .halt (.ok d2)
      else if errorMatch (d2.getLast h) then .halt (.protoErr (d2.getLast h))
      else .next d2 := by
  unfold procData
  rw [List.getLast?_eq_getLast_of_ne_nil h]
  have hE : d2.isEmpty = false := by
    cases d2 with
    | nil => exact absurd rfl h
    | cons x xs => rfl
  simp [hE]

lemma processBuf_eq (done rem1 : List Line) (hr : rem1 ≠ [])
    (hnl : ∀ l ∈ rem1, '\n' ∉ l) :
    processBuf done (joinLines rem1) =
      if starts100 (rem1.getLast hr) then .halt (.ok (done ++ rem1))
      else if errorMatch (rem1.getLast hr) then .halt (.protoErr (rem1.getLast hr))
      else .next (done ++ rem1) := by
  unfold processBuf
  rw [splitCRLF_joinLines rem1 hnl,
    show done ++ (rem1 ++ [[]]) = (done ++ rem1) ++ [([] : Line)] by simp]
  unfold trimTrailEmpty
  rw [List.getLast?_concat, if_pos rfl, List.dropLast_concat]
  have hdr : done ++ rem1 ≠ [] := by simp [hr]
  rw [procData_eq _ hdr]
  have hlast : (done ++ rem1).getLast hdr = rem1.getLast hr := by
    have h1 := List.getLast?_eq_getLast_of_ne_nil hdr
    rw [getLast?_append_right _ _ hr, List.getLast?_eq_getLast_of_ne_nil hr] at h1
    exact (Option.some_inj.mp h1).symm
  rw [hlast]

/-! ### The chunking-invariance of a well-formed successful reply -/

lemma recvLoop_ok (lines : List Line)
    (hnl : ∀ l ∈ lines, '\n' ∉ l)
    (hmid : ∀ l ∈ lines.dropLast, starts100 l = false ∧ errorMatch l = false)
    (hlastAll : ∀ h : lines ≠ [], starts100 (lines.getLast h) = true) :
    ∀ (chunks : List (List Char)) (done rem : List Line) (buf : List Char),
      (∀ c ∈ chunks, c ≠ []) →
      lines = done ++ rem → rem ≠ [] →
      buf ++ chunks.flatten = joinLines rem →
      buf.getLast? ≠ some '\n' →
      recvLoop done buf chunks = .ok lines := by
  intro chunks
  induction chunks with
  | nil =>
    intro done rem buf _ hsplit hrem hstream hbuf
    exfalso
    rw [List.flatten_nil, List.append_nil] at hstream
    exact hbuf (hstream ▸ getLast?_joinLines rem hrem)
  | cons c rest ih =>
    intro done rem buf hch hsplit hrem hstream hbuf
    have hcne : c ≠ [] := hch c (List.mem_cons_self c rest)
    have hb2ne : buf ++ c ≠ [] := fun h => hcne (List.append_eq_nil.mp h).2
    have hb2E : (buf ++ c).isEmpty = false := by
      cases hbc : buf ++ c with
      | nil => exact absurd hbc hb2ne
      | cons x xs => rfl
    have hstream2 : (buf ++ c) ++ rest.flatten = joinLines rem := by
      rw [List.append_assoc, ← List.flatten_cons (l := c)]
      exact hstream
    have hrem_nl : ∀ l ∈ rem, '\n' ∉ l := fun l hl =>
      hnl l (hsplit ▸ List.mem_append_right done hl)
    show recvLoop done buf (c :: rest) = .ok lines
    rw [recvLoop]
    simp only [hb2E, Bool.false_eq_true, if_false]
    by_cases hnlend : (buf ++ c).getLast? = some '\n'
    · rw [if_neg (fun h => h hnlend)]
      obtain ⟨rem1, rem2, hr, hr1ne, hp, hs⟩ :=
        joinLines_split rem hrem_nl (buf ++ c) rest.flatten hstream2 hb2ne hnlend
      have hnl1 : ∀ l ∈ rem1, '\n' ∉ l := fun l hl =>
        hrem_nl l (hr ▸ List.mem_append_left rem2 hl)
      rw [hp, processBuf_eq done rem1 hr1ne hnl1]
      by_cases hrem2 : rem2 = []
      · subst hrem2
        rw [List.append_nil] at hr
        have hlne : lines ≠ [] := by
          rw [hsplit]
          simp [hrem]
        have hgl : rem1.getLast hr1ne = lines.getLast hlne := by
          have h1 := List.getLast?_eq_getLast_of_ne_nil hlne
          conv at h1 => lhs; rw [hsplit, hr]
          rw [getLast?_append_right _ _ hr1ne, List.getLast?_eq_getLast_of_ne_nil hr1ne] at h1
          exact Option.some_inj.mp h1
        rw [hgl, if_pos (hlastAll hlne), hsplit, hr]
      · have hmem : rem1.getLast hr1ne ∈ lines.dropLast := by
          have h1 : lines.dropLast = (done ++ rem1) ++ rem2.dropLast := by
            rw [hsplit, hr, ← List.append_assoc]
            exact List.dropLast_append_of_ne_nil _ hrem2
          rw [h1]
          exact List.mem_append_left _ (List.mem_append_right done (List.getLast_mem hr1ne))
        obtain ⟨hm1, hm2⟩ := hmid _ hmem
        rw [if_neg (by simp [hm1]), if_neg (by simp [hm2])]
        exact ih (done ++ rem1) rem2 []
          (fun x hx => hch x (List.mem_cons_of_mem c hx))
          (by rw [hsplit, hr, List.append_assoc]) hrem2 (by simpa using hs) (by simp)
    · rw [if_pos (fun h => hnlend h)]
      exact ih done rem (buf ++ c)
        (fun x hx => hch x (List.mem_cons_of_mem c hx))
        hsplit hrem hstream2 hnlend

lemma starts100_eq_false_of_errorMatch (l : Line) (h : errorMatch l = true) :
    starts100 l = false := by
  match l with
  | [] => simp [errorMatch] at h
  | [c0] => simp [errorMatch] at h
  | [c0, c1] => simp [errorMatch] at h
  | [c0, c1, c2] => simp [errorMatch] at h
  | c0 :: c1 :: c2 :: c3 :: rest =>
    simp only [errorMatch, Bool.and_eq_true, beq_iff_eq] at h
    obtain ⟨⟨⟨h0, _⟩, _⟩, _⟩ := h
    subst h0
    simp [starts100]

/-- Other than at the dead len(data) == 0 check, no branch of the
terminator tests can produce the "no data" outcome: the data list they
inspect is never empty. -/
lemma procData_ne_halt_noData (d2 : List Line) : procData d2 ≠ .halt .noData := by
  unfold procData
  cases h : d2.getLast? with
  | none => simp
  | some last =>
    have hne : d2 ≠ [] := by
      intro he
      rw [he] at h
      simp at h
    have hE : d2.isEmpty = false := by
      cases d2 with
      | nil => exact absurd rfl hne
      | cons x xs => rfl
    by_cases h1 : starts100 last = true
    · simp [h1, hE]
    · by_cases h2 : errorMatch last = true
      · simp [h1, h2]
      · simp [h1, h2]

lemma processBuf_ne_halt_noData (data : List Line) (buf2 : List Char) :
    processBuf data buf2 ≠ .halt .noData :=
  procData_ne_halt_noData _

lemma recvLoop_ne_noData : ∀ (chunks : List (List Char)) (data : List Line) (buf : List Char),
    recvLoop data buf chunks ≠ .noData := by
  intro chunks
  induction chunks with
  | nil =>
    intro data buf
    rw [recvLoop]
    by_cases h1 : buf.isEmpty = true
    · rw [if_pos h1]
      simp
    · rw [if_neg h1]
      by_cases h2 : buf.getLast? ≠ some '\n'
      · rw [if_pos h2]
        simp
      · rw [if_neg h2]
        cases hpb : processBuf data buf with
        | halt r =>
          intro he
          have hr : r = SendResult.noData := he
          exact processBuf_ne_halt_noData data buf (hr ▸ hpb)
        | next d2 =>
          simp
  | cons c rest ih =>
    intro data buf
    rw [recvLoop]
    by_cases h1 : (buf ++ c).isEmpty = true
    · rw [if_pos h1]
      simp
    · rw [if_neg h1]
      by_cases h2 : (buf ++ c).getLast? ≠ some '\n'
      · rw [if_pos h2]
        exact ih data (buf ++ c)
      · rw [if_neg h2]
        cases hpb : processBuf data (buf ++ c) with
        | halt r =>
          intro he
          have hr : r = SendResult.noData := he
          exact processBuf_ne_halt_noData data (buf ++ c) (hr ▸ hpb)
        | next d2 =>
          exact ih d2 []

/-! ### Claim theorems about send -/

/-- Claim C1, counterexample to the claim as stated: the reply whose
lines are "200-x" then "100-ok" ends in a line beginning with "100-",
yet under the chunking that delivers one line per read, send does not
return those lines as the Reply: it raises DynamipsError("200-x"),
because the loop pattern-tests whatever line is last in each processed
buffer, not only the true final line. -/
theorem send_not_chunking_invariant_for_all_prefixes :
    send ["200-x\r\n".data, "100-ok\r\n".data] ≠ .ok ["200-x".data, "100-ok".data] ∧
    send ["200-x\r\n".data, "100-ok\r\n".data] = .protoErr ("200-x".data) := by
  constructor
  · decide
  · rfl

/-- Claim C1 (amended): for every sequence of reply lines whose final
line begins with "100-" and none of whose earlier lines begins with
"100-" or matches the error pattern, send returns exactly those lines,
in order, for every chunking of the byte stream into nonempty reads,
including splits in the middle of a line; completion is recognized only
once the full terminator line is assembled, never on a partial prefix
of it. -/
theorem send_chunking_invariant (lines : List Line) (chunks : List (List Char))
    (hne : lines ≠ [])
    (hnl : ∀ l ∈ lines, '\n' ∉ l)
    (hlast : starts100 (lines.getLast hne) = true)
    (hmid : ∀ l ∈ lines.dropLast, starts100 l = false ∧ errorMatch l = false)
    (hchunks : ∀ c ∈ chunks, c ≠ [])
    (hstream : chunks.flatten = joinLines lines) :
    send chunks = .ok lines := by
  unfold send
  exact recvLoop_ok lines hnl hmid (fun _ => hlast) chunks [] lines [] hchunks rfl hne
    (by simpa using hstream) (by simp)

/-- Witness for C1's amended theorem, on the spec's own scenario: the
terminator line "100-" delivered split mid-line as "10" then "0-". -/
theorem send_chunking_invariant_witness :
    send ["hi\r\n10".data, "0-\r\n".data] = .ok ["hi".data, "100-".data] :=
  send_chunking_invariant ["hi".data, "100-".data] ["hi\r\n10".data, "0-\r\n".data]
    (by decide) (by decide) (by decide) (by decide) (by decide) (by decide)

/-- Claim C2: for every reply whose final line matches the error
pattern (three digits 2xx followed by "-"), send raises DynamipsError
whose message is that final line, with no condition at all on the
earlier lines of the reply — in particular they may match the success
pattern. The reply is delivered as the backend assembled it, in one
read. -/
theorem send_error_final_line (lines : List Line) (hne : lines ≠ [])
    (hnl : ∀ l ∈ lines, '\n' ∉ l)
    (herr : errorMatch (lines.getLast hne) = true) :
    send [joinLines lines] = .protoErr (lines.getLast hne) := by
  have hlast100 : starts100 (lines.getLast hne) = false :=
    starts100_eq_false_of_errorMatch _ herr
  have hjne : joinLines lines ≠ [] := joinLines_ne_nil lines hne
  have hE : (([] : List Char) ++ joinLines lines).isEmpty = false := by
    rw [List.nil_append]
    cases hj : joinLines lines with
    | nil => exact absurd hj hjne
    | cons x xs => rfl
  have hend : (([] : List Char) ++ joinLines lines).getLast? = some '\n' := by
    rw [List.nil_append]
    exact getLast?_joinLines lines hne
  unfold send
  rw [recvLoop]
  simp only [hE, Bool.false_eq_true, if_false]
  rw [if_neg (fun h => h hend),
    show ([] : List Char) ++ joinLines lines = joinLines lines from List.nil_append _,
    processBuf_eq [] lines hne hnl, if_neg (by simp [hlast100]), if_pos herr]

/-- Witness for C2: a reply whose first line matches the success
pattern and whose final line is an error still raises the error. -/
theorem send_error_final_line_witness :
    send [joinLines ["100-ok".data, "205-bad".data]] = .protoErr ("205-bad".data) :=
  send_error_final_line ["100-ok".data, "205-bad".data] (by decide) (by decide) (by decide)

/-- Claim C9: the DynamipsError("no data") branch of send is dead code
— no chunking / close behaviour of the connection can reach it, because
the receive loop only exits by break with a nonempty data list or by
raising — and a connection that closes before yielding any data instead
makes the source evaluate buf[-1] on an empty string, an uncaught
IndexError. -/
theorem send_no_data_dead_code :
    send [] = SendResult.indexError ∧ ∀ chunks, send chunks ≠ SendResult.noData := by
  constructor
  · rfl
  · intro chunks
    exact recvLoop_ne_noData chunks [] []

/-! ### The interface compatibility validator (validate_connect) -/

/-- Containment of a as a contiguous segment of the second list:
Python's `in` operator on two strings. -/
def subSeg (a : List Char) : List Char → Bool
  | [] => a.isEmpty
  | c :: rest => a.isPrefixOf (c :: rest) || subSeg a rest

/-- Python `a in b` where both are strings: substring containment. -/
def pyInStr (a b : String) : Bool := subSeg a.data b.data

/-- The tuple `ethernets` of validate_connect. -/
def ethernets : List String :=
  ["C7200-IO-FE", "PA-FE-TX", "PA-4E", "PA-8E", "NM-1FE-TX", "NM-1E", "NM-4E",
   "NM-16ESW", "Leopard-2FE", "GT96100-FE", "Bridge", "ETHSW"]

/-- The tuple `serials` of validate_connect. -/
def serials : List String := ["PA-4T+", "PA-8T", "NM-4T", "FRSW"]

/-- The tuple `atms` of validate_connect. -/
def atms : List String := ["PA-A1", "ATMSW"]

/-- `poss = ('PA-POS-OC3')` of the source: the parentheses do not make
a one-element tuple, so poss is a plain string, and the `in` tests
against it are substring containment rather than element membership. -/
def poss : String := "PA-POS-OC3"

/-- validate_connect of the source, as a function of the `.adapter`
strings of the two endpoints. The bridge-to-bridge test runs first;
then the four family membership tests in source order; any fall-through
raises the incompatibility error. -/
def validate_connect (a1 a2 : String) : Except String Unit :=
  if a1 == "Bridge" && a2 == "Bridge" then .error "attempt to connect two bridges"
  else if ethernets.contains a1 && ethernets.contains a2 then .ok ()
  else if serials.contains a1 && serials.contains a2 then .ok ()
  else if atms.contains a1 && atms.contains a2 then .ok ()
  else if pyInStr a1 poss && pyInStr a2 poss then .ok ()
  else .error ("attempt to connect " ++ a1 ++ " to " ++ a2)

/-- Whether validate_connect returned normally rather than raising. -/
def vcOk (r : Except String Unit) : Bool :=
  match r with
  | .ok _ => true
  | .error _ => false

/-- The supported endpoint kinds: every adapter model the repository
can construct, plus the bridge and the three switch kinds. -/
inductive Kind where
  | c7200ioFE | paFETX | pa4E | pa8E | nm1FETX | nm1E | nm4E | nm16ESW
  | leopard2FE | gt96100FE | bridge | ethsw
  | pa4T | pa8T | nm4T | frsw
  | paA1 | atmsw
  | paPOSOC3
  deriving DecidableEq, Fintype

/-- The `.adapter` string each supported kind reports. -/
def kindStr : Kind → String
  | .c7200ioFE => "C7200-IO-FE"
  | .paFETX => "PA-FE-TX"
  | .pa4E => "PA-4E"
  | .pa8E => "PA-8E"
  | .nm1FETX => "NM-1FE-TX"
  | .nm1E => "NM-1E"
  | .nm4E => "NM-4E"
  | .nm16ESW => "NM-16ESW"
  | .leopard2FE => "Leopard-2FE"
  | .gt96100FE => "GT96100-FE"
  | .bridge => "Bridge"
  | .ethsw => "ETHSW"
  | .pa4T => "PA-4T+"
  | .pa8T => "PA-8T"
  | .nm4T => "NM-4T"
  | .frsw => "FRSW"
  | .paA1 => "PA-A1"
  | .atmsw => "ATMSW"
  | .paPOSOC3 => "PA-POS-OC3"

/-- The four interface families of the spec. -/
inductive Family where
  | ethernetLike | serialFam | atmFam | posFam
  deriving DecidableEq

/-- The family classification as the spec words it: Ethernet adapters
of all router families plus bridges and Ethernet switches are
Ethernet-like; serial adapters and the Frame Relay switch are Serial;
ATM adapters and the ATM switch are ATM; the POS adapter is POS. -/
def specFamily : Kind → Family
  | .c7200ioFE | .paFETX | .pa4E | .pa8E | .nm1FETX | .nm1E | .nm4E | .nm16ESW
  | .leopard2FE | .gt96100FE | .bridge | .ethsw => .ethernetLike
  | .pa4T | .pa8T | .nm4T | .frsw => .serialFam
  | .paA1 | .atmsw => .atmFam
  | .paPOSOC3 => .posFam

/-- Claim C3: over all pairs of supported endpoint kinds,
validate_connect accepts exactly when both kinds fall in the same
family, except that a bridge is never accepted against another
bridge. -/
theorem validate_connect_same_family_iff :
    ∀ k1 k2 : Kind,
      vcOk (validate_connect (kindStr k1) (kindStr k2)) = true ↔
        (specFamily k1 = specFamily k2 ∧ ¬(k1 = Kind.bridge ∧ k2 = Kind.bridge)) := by
  decide

/-- The acceptance behaviour of validate_connect as one boolean
formula, with the tests in source order. -/
lemma vcOk_validate_connect (a b : String) :
    vcOk (validate_connect a b) =
      (!(a == "Bridge" && b == "Bridge") &&
        ((ethernets.contains a && ethernets.contains b) ||
         (serials.contains a && serials.contains b) ||
         (atms.contains a && atms.contains b) ||
         (pyInStr a poss && pyInStr b poss))) := by
  unfold validate_connect
  split_ifs with h1 h2 h3 h4 h5 <;> simp_all [vcOk] <;> tauto

/-- Claim C10: validate_connect is symmetric — it accepts (a, b)
exactly when it accepts (b, a), and hence raises on (a, b) exactly when
it raises on (b, a), for every pair of kind strings whatsoever. -/
theorem validate_connect_symm (a b : String) :
    vcOk (validate_connect a b) = vcOk (validate_connect b a) := by
  rw [vcOk_validate_connect, vcOk_validate_connect,
    Bool.and_comm (a == "Bridge"), Bool.and_comm (ethernets.contains a),
    Bool.and_comm (serials.contains a), Bool.and_comm (atms.contains a),
    Bool.and_comm (pyInStr a poss)]

/-! ### The link orchestrator (gen_connect) -/

/-- The state of one Dynamips host instance that gen_connect touches:
its host address and its next free NIO UDP transport port. -/
structure Dyn where
  host : String
  udp : Int
  deriving DecidableEq

/-- All live host instances, indexed by identity. Two distinct indices
are two distinct live connections whatever their host strings are. -/
def World := Nat → Dyn

/-- The `u = d.udp; d.udp = d.udp + 1` allocation step of gen_connect
on instance i: returns the allocated port and the updated world. -/
def allocUdp (w : World) (i : Nat) : Int × World :=
  ((w i).udp, fun j => if j = i then ⟨(w j).host, (w j).udp + 1⟩ else w j)

/-- A UDP NIO as constructed by NIO_udp.__init__. -/
structure NIOudp where
  onInst : Nat
  udplocal : Int
  remotehost : String
  udpremote : Int
  deriving DecidableEq

/-- A command sent to a backend instance. -/
inductive Cmd where
  | createUdp (inst : Nat) (udplocal : Int) (remotehost : String) (udpremote : Int)
  | addNioBinding (inst : Nat) (port : Int) (nio : NIOudp)
  | bridgeAddNio (inst : Nat) (nio : NIOudp)
  deriving DecidableEq

/-- One invocation of gen_connect: the two instances, the `.adapter`
strings and ports of the two endpoints, and whether each of the four
backend round-trips (create src NIO, create dst NIO, bind src, bind
dst) succeeds (true) or raises DynamipsError (false). -/
structure Call where
  src : Nat
  dst : Nat
  srcAdapter : String
  dstAdapter : String
  srcPort : Int
  dstPort : Option Int
  okNioSrc : Bool
  okNioDst : Bool
  okBindSrc : Bool
  okBindDst : Bool

/-- gen_connect's observable outcome: the final world (a Python
exception does not roll any state back), the commands actually sent in
order, the UDP ports allocated in order as (instance, port) pairs, and
either the two NIOs or the raised error. -/
structure GCOut where
  world : World
  sent : List Cmd
  allocated : List (Nat × Int)
  result : Except String (NIOudp × NIOudp)

/-- gen_connect of the source. Validation runs first and an invalid
pair aborts before any other step. Loopback addressing is chosen by
comparing the two instances' host attributes. Both UDP ports are
allocated before any backend command is issued, and the counters stay
incremented whether or not the subsequent NIO creations and bindings
succeed. A failed round-trip stops the remaining ones. The destination
is bound as a bridge exactly when its adapter string is "Bridge" (only
Bridge instances report that adapter). -/
def gen_connect (w : World) (c : Call) : GCOut :=
  match validate_connect c.srcAdapter c.dstAdapter with
  | .error e => ⟨w, [], [], .error e⟩
  | .ok _ =>
    let sameHost := (w c.src).host == (w c.dst).host
    let src_ip := if sameHost then "127.0.0.1" else (w c.src).host
    let dst_ip := if sameHost then "127.0.0.1" else (w c.dst).host
    let a1 := allocUdp w c.src
    let src_udp := a1.1
    let w1 := a1.2
    let a2 := allocUdp w1 c.dst
    let dst_udp := a2.1
    let w2 := a2.2
    let src_nio : NIOudp := ⟨c.src, src_udp, dst_ip, dst_udp⟩
    let dst_nio : NIOudp := ⟨c.dst, dst_udp, src_ip, src_udp⟩
    let cmd1 := Cmd.createUdp c.src src_udp dst_ip dst_udp
    let cmd2 := Cmd.createUdp c.dst dst_udp src_ip src_udp
    let cmd3 := Cmd.addNioBinding c.src c.srcPort src_nio
    let cmd4 := if c.dstAdapter == "Bridge" then Cmd.bridgeAddNio c.dst dst_nio
      else Cmd.addNioBinding c.dst (c.dstPort.getD 0) dst_nio
    { world := w2
      allocated := [(c.src, src_udp), (c.dst, dst_udp)]
      sent := cmd1 :: (if c.okNioSrc = false then [] else
        cmd2 :: (if c.okNioDst = false then [] else
          cmd3 :: (if c.okBindSrc = false then [] else [cmd4])))
      result :=
        if c.okNioSrc = false ∨ c.okNioDst = false ∨
            c.okBindSrc = false ∨ c.okBindDst = false then
          .error "DynamipsError"
        else .ok (src_nio, dst_nio) }

lemma allocUdp_udp (w : World) (i j : Nat) :
    ((allocUdp w i).2 j).udp = if j = i then (w j).udp + 1 else (w j).udp := by
  show (if j = i then (⟨(w j).host, (w j).udp + 1⟩ : Dyn) else w j).udp = _
  split <;> rfl

lemma allocUdp_host (w : World) (i j : Nat) :
    ((allocUdp w i).2 j).host = (w j).host := by
  show (if j = i then (⟨(w j).host, (w j).udp + 1⟩ : Dyn) else w j).host = _
  split <;> rfl

/-- The result field of gen_connect once validation has passed. -/
lemma gen_connect_ok_result (w : World) (c : Call)
    (hv : validate_connect c.srcAdapter c.dstAdapter = .ok ()) :
    (gen_connect w c).result =
      if c.okNioSrc = false ∨ c.okNioDst = false ∨
          c.okBindSrc = false ∨ c.okBindDst = false then
        .error "DynamipsError"
      else
        .ok (⟨c.src, (w c.src).udp,
              (if (w c.src).host == (w c.dst).host then "127.0.0.1" else (w c.dst).host),
              ((allocUdp w c.src).2 c.dst).udp⟩,
             ⟨c.dst, ((allocUdp w c.src).2 c.dst).udp,
              (if (w c.src).host == (w c.dst).host then "127.0.0.1" else (w c.src).host),
              (w c.src).udp⟩) := by
  unfold gen_connect
  rw [hv]
  rfl

/-- Inversion: a successful gen_connect pins both NIOs completely. -/
lemma gen_connect_result_ok_inv (w : World) (c : Call) (snio dnio : NIOudp)
    (h : (gen_connect w c).result = .ok (snio, dnio)) :
    snio = ⟨c.src, (w c.src).udp,
            (if (w c.src).host == (w c.dst).host then "127.0.0.1" else (w c.dst).host),
            ((allocUdp w c.src).2 c.dst).udp⟩ ∧
    dnio = ⟨c.dst, ((allocUdp w c.src).2 c.dst).udp,
            (if (w c.src).host == (w c.dst).host then "127.0.0.1" else (w c.src).host),
            (w c.src).udp⟩ := by
  cases hv : validate_connect c.srcAdapter c.dstAdapter with
  | error e =>
    unfold gen_connect at h
    rw [hv] at h
    exact absurd h (by simp)
  | ok u =>
    cases u
    rw [gen_connect_ok_result w c hv] at h
    by_cases hP : (c.okNioSrc = false ∨ c.okNioDst = false ∨
        c.okBindSrc = false ∨ c.okBindDst = false)
    · rw [if_pos hP] at h
      exact absurd h (by simp)
    · rw [if_neg hP] at h
      simp only [Except.ok.injEq, Prod.mk.injEq] at h
      exact ⟨h.1.symm, h.2.symm⟩

/-- Claim C7: a successful gen_connect creates exactly two UDP
endpoints that mirror each other: the source endpoint lives on the
source instance with local port the source-allocated port and remote
port the destination-allocated port, and the destination endpoint has
the two roles reversed. -/
theorem gen_connect_mirrored_pair (w : World) (c : Call) (snio dnio : NIOudp)
    (h : (gen_connect w c).result = .ok (snio, dnio)) :
    snio.onInst = c.src ∧ dnio.onInst = c.dst ∧
    snio.udplocal = (w c.src).udp ∧
    snio.udpremote = ((allocUdp w c.src).2 c.dst).udp ∧
    dnio.udplocal = snio.udpremote ∧
    dnio.udpremote = snio.udplocal := by
  obtain ⟨hs, hd⟩ := gen_connect_result_ok_inv w c snio dnio h
  subst hs
  subst hd
  exact ⟨rfl, rfl, rfl, rfl, rfl, rfl⟩

/-- Claim C8 (amended): both endpoints of a successful gen_connect use
the loopback remote address exactly when the two instances have equal
host attributes — in particular whenever they are the same live
connection — and otherwise each side uses the other side's host
address. -/
theorem gen_connect_addressing (w : World) (c : Call) (snio dnio : NIOudp)
    (h : (gen_connect w c).result = .ok (snio, dnio)) :
    if (w c.src).host = (w c.dst).host then
      snio.remotehost = "127.0.0.1" ∧ dnio.remotehost = "127.0.0.1"
    else
      snio.remotehost = (w c.dst).host ∧ dnio.remotehost = (w c.src).host := by
  obtain ⟨hs, hd⟩ := gen_connect_result_ok_inv w c snio dnio h
  subst hs
  subst hd
  by_cases hh : (w c.src).host = (w c.dst).host
  · rw [if_pos hh]
    simp [hh]
  · rw [if_neg hh]
    simp [beq_iff_eq, hh]

/-- Claim C6: when validation rejects the pair, gen_connect raises the
incompatibility error and has no side effects: the world (in
particular every UDP counter) is unchanged, no command was sent, and
no port was allocated. -/
theorem gen_connect_invalid_no_side_effects (w : World) (c : Call)
    (h : vcOk (validate_connect c.srcAdapter c.dstAdapter) = false) :
    (gen_connect w c).world = w ∧ (gen_connect w c).sent = [] ∧
    (gen_connect w c).allocated = [] ∧
    ∃ e, validate_connect c.srcAdapter c.dstAdapter = .error e ∧
      (gen_connect w c).result = .error e := by
  cases hv : validate_connect c.srcAdapter c.dstAdapter with
  | ok u =>
    rw [hv] at h
    simp [vcOk] at h
  | error e =>
    unfold gen_connect
    rw [hv]
    exact ⟨rfl, rfl, rfl, e, rfl, rfl⟩

/-- A world with two instances on two different hosts. -/
def wTwo : World := fun i => if i = 0 then ⟨"alpha", 100⟩ else ⟨"beta", 200⟩

/-- A world whose two distinct instances share one host string. -/
def wShared : World := fun i => if i = 0 then ⟨"alpha", 100⟩ else ⟨"alpha", 200⟩

/-- A fully successful Ethernet-to-Ethernet call between instances 0
and 1. -/
def callEthEth : Call := ⟨0, 1, "PA-4E", "NM-1E", 0, some 0, true, true, true, true⟩

/-- An Ethernet-to-Serial call between instances 0 and 1. -/
def callEthSer : Call := ⟨0, 1, "PA-4E", "PA-4T+", 0, some 0, true, true, true, true⟩

/-- Witness for C7 at a concrete world and call. -/
theorem gen_connect_mirrored_pair_witness :
    (gen_connect wTwo callEthEth).result =
      .ok (⟨0, 100, "beta", 200⟩, ⟨1, 200, "alpha", 100⟩) ∧
    ((⟨0, 100, "beta", 200⟩ : NIOudp).onInst = callEthEth.src ∧
     (⟨1, 200, "alpha", 100⟩ : NIOudp).onInst = callEthEth.dst ∧
     (⟨0, 100, "beta", 200⟩ : NIOudp).udplocal = (wTwo callEthEth.src).udp ∧
     (⟨0, 100, "beta", 200⟩ : NIOudp).udpremote =
       ((allocUdp wTwo callEthEth.src).2 callEthEth.dst).udp ∧
     (⟨1, 200, "alpha", 100⟩ : NIOudp).udplocal = (⟨0, 100, "beta", 200⟩ : NIOudp).udpremote ∧
     (⟨1, 200, "alpha", 100⟩ : NIOudp).udpremote = (⟨0, 100, "beta", 200⟩ : NIOudp).udplocal) :=
  ⟨by rfl, gen_connect_mirrored_pair wTwo callEthEth _ _ (by rfl)⟩

/-- Witness for C8's amended theorem at a concrete cross-host call. -/
theorem gen_connect_addressing_witness :
    (gen_connect wTwo callEthEth).result =
      .ok (⟨0, 100, "beta", 200⟩, ⟨1, 200, "alpha", 100⟩) ∧
    (if (wTwo callEthEth.src).host = (wTwo callEthEth.dst).host then
      (⟨0, 100, "beta", 200⟩ : NIOudp).remotehost = "127.0.0.1" ∧
      (⟨1, 200, "alpha", 100⟩ : NIOudp).remotehost = "127.0.0.1"
    else
      (⟨0, 100, "beta", 200⟩ : NIOudp).remotehost = (wTwo callEthEth.dst).host ∧
      (⟨1, 200, "alpha", 100⟩ : NIOudp).remotehost = (wTwo callEthEth.src).host) :=
  ⟨by rfl, gen_connect_addressing wTwo callEthEth _ _ (by rfl)⟩

/-- Claim C8, counterexample to the claim as stated: instances 0 and 1
of wShared are two distinct live connections, so the claim requires
each created endpoint to carry the other instance's real network
address "alpha"; but because the source compares host strings, not
connection identity, both endpoints are created with the loopback
remote address instead. -/
theorem gen_connect_loopback_counterexample :
    (gen_connect wShared callEthEth).result =
      .ok (⟨0, 100, "127.0.0.1", 200⟩, ⟨1, 200, "127.0.0.1", 100⟩) ∧
    (wShared 1).host ≠ "127.0.0.1" ∧ (wShared 0).host ≠ "127.0.0.1" := by
  exact ⟨by rfl, by decide, by decide⟩

/-- Witness for C6 at a concrete incompatible call. -/
theorem gen_connect_invalid_witness :
    vcOk (validate_connect callEthSer.srcAdapter callEthSer.dstAdapter) = false ∧
    ((gen_connect wTwo callEthSer).world = wTwo ∧
     (gen_connect wTwo callEthSer).sent = [] ∧
     (gen_connect wTwo callEthSer).allocated = [] ∧
     ∃ e, validate_connect callEthSer.srcAdapter callEthSer.dstAdapter = .error e ∧
       (gen_connect wTwo callEthSer).result = .error e) :=
  ⟨by decide, gen_connect_invalid_no_side_effects wTwo callEthSer (by decide)⟩

/-! ### Transport-port counter monotonicity across runs of gen_connect -/

/-- Running a list of gen_connect calls in order; returns the final
world and the (instance, port) allocations performed, in order. -/
def runCalls : World → List Call → World × List (Nat × Int)
  | w, [] => (w, [])
  | w, c :: cs =>
    let out := gen_connect w c
    let r := runCalls out.world cs
    (r.1, out.allocated ++ r.2)

/-- Strictly increasing lists of integers concatenate when everything
on the left is below a bound and everything on the right at or above
it. -/
lemma chain'_lt_append_of_bound {l1 l2 : List Int} (b : Int)
    (h1 : List.Chain' (· < ·) l1) (h2 : List.Chain' (· < ·) l2)
    (hub : ∀ x ∈ l1, x < b) (hlb : ∀ y ∈ l2, b ≤ y) :
    List.Chain' (· < ·) (l1 ++ l2) := by
  rw [List.chain'_append]
  refine ⟨h1, h2, ?_⟩
  intro x hx y hy
  rw [Option.mem_def] at hx
  obtain ⟨ys, hys⟩ := List.getLast?_eq_some_iff.mp hx
  have hx2 : x ∈ l1 := by rw [hys]; simp
  have hy2 : y ∈ l2 := List.mem_of_mem_head? hy
  exact lt_of_lt_of_le (hub x hx2) (hlb y hy2)

/-- Per-instance udp accounting of one gen_connect call: the counter
moves up by exactly the number of allocations made on that instance,
the allocations are strictly increasing, and each allocated port lies
between the counter value before and after the call. -/
lemma gen_connect_alloc_inv (w : World) (c : Call) (i : Nat) :
    ((gen_connect w c).world i).udp =
        (w i).udp + (((gen_connect w c).allocated.filter (fun p => p.1 == i)).length : Int) ∧
      List.Chain' (· < ·)
        (((gen_connect w c).allocated.filter (fun p => p.1 == i)).map Prod.snd) ∧
      ∀ p ∈ (gen_connect w c).allocated.filter (fun p => p.1 == i),
        (w i).udp ≤ p.2 ∧ p.2 < ((gen_connect w c).world i).udp := by
  cases hv : validate_connect c.srcAdapter c.dstAdapter with
  | error e =>
    have hw : (gen_connect w c).world = w := by unfold gen_connect; rw [hv]
    have ha : (gen_connect w c).allocated = [] := by unfold gen_connect; rw [hv]
    rw [hw, ha]
    simp
  | ok u =>
    cases u
    have hw : (gen_connect w c).world = (allocUdp (allocUdp w c.src).2 c.dst).2 := by
      unfold gen_connect; rw [hv]
      try rfl
    have ha : (gen_connect w c).allocated =
        [(c.src, (w c.src).udp), (c.dst, ((allocUdp w c.src).2 c.dst).udp)] := by
      unfold gen_connect; rw [hv]
      try rfl
    rw [hw, ha]
    rcases eq_or_ne i c.src with hsi | hsi
    · subst hsi
      rcases eq_or_ne c.dst c.src with hdi | hdi
      · rw [hdi]
        simp [List.filter_cons, List.filter_nil, allocUdp_udp, List.chain'_cons,
          List.chain'_singleton]
        omega
      · simp [List.filter_cons, List.filter_nil, allocUdp_udp, hdi, hdi.symm,
          beq_eq_false_iff_ne, List.chain'_singleton]
        try omega
    · rcases eq_or_ne i c.dst with hdi | hdi
      · subst hdi
        simp [List.filter_cons, List.filter_nil, allocUdp_udp, hsi, hsi.symm,
          beq_eq_false_iff_ne, List.chain'_singleton]
        try omega
      · simp [List.filter_cons, List.filter_nil, allocUdp_udp, hsi, hsi.symm, hdi, hdi.symm,
          beq_eq_false_iff_ne]

/-- Claim C4: (first part) whenever validation passes, gen_connect's
two allocations return the current counter values — the source port is
the source counter before the call, the destination port the
destination counter right after the source increment — and the final
world is obtained by exactly one increment per allocation, whatever
the four backend outcomes are; (second part) across any run of calls,
each instance's counter increases by exactly its number of
allocations, the ports allocated on one instance are strictly
increasing, and every allocated port stays below the counter forever
after, so no port is ever reused. -/
theorem udp_counter_strictly_monotonic :
    (∀ (w : World) (c : Call),
      vcOk (validate_connect c.srcAdapter c.dstAdapter) = true →
        (gen_connect w c).allocated =
          [(c.src, (w c.src).udp), (c.dst, ((allocUdp w c.src).2 c.dst).udp)] ∧
        (gen_connect w c).world = (allocUdp (allocUdp w c.src).2 c.dst).2) ∧
    (∀ (cs : List Call) (w : World) (i : Nat),
      ((runCalls w cs).1 i).udp =
          (w i).udp + (((runCalls w cs).2.filter (fun p => p.1 == i)).length : Int) ∧
      List.Chain' (· < ·)
        (((runCalls w cs).2.filter (fun p => p.1 == i)).map Prod.snd) ∧
      ∀ p ∈ (runCalls w cs).2.filter (fun p => p.1 == i),
        (w i).udp ≤ p.2 ∧ p.2 < ((runCalls w cs).1 i).udp) := by
  constructor
  · intro w c h
    cases hv : validate_connect c.srcAdapter c.dstAdapter with
    | error e =>
      rw [hv] at h
      simp [vcOk] at h
    | ok u =>
      cases u
      constructor
      · unfold gen_connect; rw [hv]
        try rfl
      · unfold gen_connect; rw [hv]
        try rfl
  · intro cs
    induction cs with
    | nil =>
      intro w i
      simp [runCalls]
    | cons c cs ih =>
      intro w i
      obtain ⟨h1, h2, h3⟩ := gen_connect_alloc_inv w c i
      obtain ⟨ih1, ih2, ih3⟩ := ih (gen_connect w c).world i
      have hrun1 : (runCalls w (c :: cs)).1 = (runCalls (gen_connect w c).world cs).1 := rfl
      have hrun2 : (runCalls w (c :: cs)).2 =
          (gen_connect w c).allocated ++ (runCalls (gen_connect w c).world cs).2 := rfl
      rw [hrun1, hrun2, List.filter_append]
      have hlen2 :
          (0 : Int) ≤ (((runCalls (gen_connect w c).world cs).2.filter
            (fun p => p.1 == i)).length : Int) := Int.natCast_nonneg _
      have hlen1 :
          (0 : Int) ≤ (((gen_connect w c).allocated.filter
            (fun p => p.1 == i)).length : Int) := Int.natCast_nonneg _
      refine ⟨?_, ?_, ?_⟩
      · rw [List.length_append]
        push_cast
        omega
      · rw [List.map_append]
        refine chain'_lt_append_of_bound (((gen_connect w c).world i).udp) h2 ih2 ?_ ?_
        · intro x hx
          obtain ⟨p, hp, hpx⟩ := List.mem_map.mp hx
          exact hpx ▸ (h3 p hp).2
        · intro y hy
          obtain ⟨p, hp, hpy⟩ := List.mem_map.mp hy
          exact hpy ▸ (ih3 p hp).1
      · intro p hp
        rcases List.mem_append.mp hp with hp1 | hp2
        · obtain ⟨hlb, hub⟩ := h3 p hp1
          exact ⟨hlb, by omega⟩
        · obtain ⟨hlb, hub⟩ := ih3 p hp2
          exact ⟨by omega, hub⟩

/-- Witness for C4's first part at a concrete world and call. -/
theorem udp_counter_strictly_monotonic_witness :
    vcOk (validate_connect callEthEth.srcAdapter callEthEth.dstAdapter) = true ∧
    ((gen_connect wTwo callEthEth).allocated =
        [(callEthEth.src, (wTwo callEthEth.src).udp),
         (callEthEth.dst, ((allocUdp wTwo callEthEth.src).2 callEthEth.dst).udp)] ∧
      (gen_connect wTwo callEthEth).world =
        (allocUdp (allocUdp wTwo callEthEth.src).2 callEthEth.dst).2) :=
  ⟨by decide, udp_counter_strictly_monotonic.1 wTwo callEthEth (by decide)⟩

/-! ### Console port assignment (Router.__setconsole / checkconsole) -/

/-- What console conflict checking sees of a registered device: its
name and its console attribute. none models a device without the
attribute — the AttributeError branch of checkconsole skips it. -/
structure Device where
  name : String
  console : Option Int
  deriving DecidableEq

/-- checkconsole of the source: scan the instance's devices in order
and return the first one whose console equals the candidate port, or
none. The source returns the device object itself and compares it to
the requester by identity; position in the registry stands for
identity here. -/
def checkconsole (console : Int) : List Device → Option Nat
  | [] => none
  | d :: ds =>
    if d.console = some console then some 0
    else (checkconsole console ds).map Nat.succ

/-- Overwriting the console attribute of the device at one position. -/
def setConsoleAt : List Device → Nat → Int → List Device
  | [], _, _ => []
  | d :: ds, 0, c => ⟨d.name, some c⟩ :: ds
  | d :: ds, n + 1, c => d :: setConsoleAt ds n c

/-- Router.__setconsole of the source, for the router sitting at
position selfIdx of its instance's device registry: validate the port
range, then raise the conflict error if a device other than the
requester already holds the port (leaving every console attribute
untouched); otherwise record the port. -/
def setconsole (devs : List Device) (selfIdx : Nat) (console : Int) :
    Except String (List Device) :=
  if console < 1 ∨ console > 65535 then .error "invalid console port"
  else
    match checkconsole console devs with
    | some i =>
      if i ≠ selfIdx then .error "console port is already in use"
      else .ok (setConsoleAt devs selfIdx console)
    | none => .ok (setConsoleAt devs selfIdx console)

/-- What checkconsole's answer means: a returned position holds the
port, and a none answer means no position holds it. -/
lemma checkconsole_spec (c : Int) : ∀ devs : List Device,
    (∀ j, checkconsole c devs = some j →
      ∃ hj : j < devs.length, (devs.get ⟨j, hj⟩).console = some c) ∧
    (checkconsole c devs = none →
      ∀ j (hj : j < devs.length), (devs.get ⟨j, hj⟩).console ≠ some c) := by
  intro devs
  induction devs with
  | nil =>
    constructor
    · intro j hj
      simp [checkconsole] at hj
    · intro _ j hj
      simp at hj
  | cons d ds ih =>
    by_cases hd : d.console = some c
    · constructor
      · intro j hj
        rw [checkconsole, if_pos hd] at hj
        obtain rfl : 0 = j := Option.some_inj.mp hj
        exact ⟨Nat.succ_pos _, hd⟩
      · intro hn
        rw [checkconsole, if_pos hd] at hn
        exact absurd hn (by simp)
    · constructor
      · intro j hj
        rw [checkconsole, if_neg hd] at hj
        cases hr : checkconsole c ds with
        | none => rw [hr] at hj; simp at hj
        | some j0 =>
          rw [hr] at hj
          obtain rfl : j0 + 1 = j := Option.some_inj.mp hj
          obtain ⟨hj0, hcj0⟩ := ih.1 j0 hr
          exact ⟨Nat.succ_lt_succ hj0, by simpa using hcj0⟩
      · intro hn j hj
        rw [checkconsole, if_neg hd] at hn
        cases hr : checkconsole c ds with
        | some j0 => rw [hr] at hn; simp at hn
        | none =>
          cases j with
          | zero => simpa using hd
          | succ n =>
            have hn2 : n < ds.length := Nat.lt_of_succ_lt_succ hj
            simpa using ih.2 hr n hn2

/-- Re-assigning a device the console value it already holds does not
change the registry. -/
lemma setConsoleAt_self : ∀ (devs : List Device) (j : Nat) (hj : j < devs.length) (c : Int),
    (devs.get ⟨j, hj⟩).console = some c → setConsoleAt devs j c = devs := by
  intro devs
  induction devs with
  | nil =>
    intro j hj
    simp at hj
  | cons d ds ih =>
    intro j hj c hc
    cases j with
    | zero =>
      show (⟨d.name, some c⟩ : Device) :: ds = d :: ds
      cases d with
      | mk n con =>
        simp only [List.get] at hc
        simp [hc]
    | succ n =>
      show d :: setConsoleAt ds n c = d :: ds
      rw [ih n (Nat.lt_of_succ_lt_succ hj) c (by simpa using hc)]

/-- Claim C5: under the registry invariant that at most one device
holds any console port, (a) assigning a router the console port it
already holds never raises — the registry is returned unchanged — and
(b) assigning it a port held by a different device of the same
instance always raises, leaving every console attribute unchanged. -/
theorem setconsole_idempotent_and_conflict (devs : List Device) (selfIdx : Nat)
    (hself : selfIdx < devs.length) (p : Int)
    (hrange : 1 ≤ p ∧ p ≤ 65535)
    (huniq : ∀ i j : Fin devs.length,
      (devs.get i).console = some p → (devs.get j).console = some p → i = j) :
    ((devs.get ⟨selfIdx, hself⟩).console = some p →
      setconsole devs selfIdx p = .ok devs) ∧
    (∀ j : Fin devs.length, (j : Nat) ≠ selfIdx →
      (devs.get j).console = some p →
      ∃ e, setconsole devs selfIdx p = .error e) := by
  have hnr : ¬(p < 1 ∨ p > 65535) := by omega
  constructor
  · intro hc
    unfold setconsole
    rw [if_neg hnr]
    cases hck : checkconsole p devs with
    | none =>
      exact absurd hc ((checkconsole_spec p devs).2 hck selfIdx hself)
    | some i =>
      obtain ⟨hi, hci⟩ := (checkconsole_spec p devs).1 i hck
      have hfin : (⟨i, hi⟩ : Fin devs.length) = ⟨selfIdx, hself⟩ := huniq _ _ hci hc
      have hii : i = selfIdx := by simpa using hfin
      show (if i ≠ selfIdx then Except.error "console port is already in use"
          else Except.ok (setConsoleAt devs selfIdx p)) = Except.ok devs
      rw [if_neg (by simp [hii]), setConsoleAt_self devs selfIdx hself p hc]
  · intro j hj hcj
    unfold setconsole
    rw [if_neg hnr]
    cases hck : checkconsole p devs with
    | none =>
      exact absurd hcj ((checkconsole_spec p devs).2 hck j j.isLt)
    | some i =>
      obtain ⟨hi, hci⟩ := (checkconsole_spec p devs).1 i hck
      have hfin : (⟨i, hi⟩ : Fin devs.length) = j := huniq _ _ hci hcj
      have hval : (j : Nat) = i := by rw [← hfin]
      have hine : i ≠ selfIdx := by omega
      show ∃ e, (if i ≠ selfIdx then Except.error "console port is already in use"
          else Except.ok (setConsoleAt devs selfIdx p)) = Except.error e
      rw [if_pos hine]
      exact ⟨_, rfl⟩

/-- A concrete registry for the C5 witness: two routers with consoles
2000 and 2001 and one device with no console attribute. -/
def devsW : List Device := [⟨"r0", some 2000⟩, ⟨"r1", some 2001⟩, ⟨"b0", none⟩]

/-- Witness for C5: router r0 re-assigned its own port 2000. -/
theorem setconsole_idempotent_and_conflict_witness :
    ((1:Int) ≤ 2000 ∧ (2000:Int) ≤ 65535) ∧
    (((devsW.get ⟨0, by decide⟩).console = some 2000 →
        setconsole devsW 0 2000 = .ok devsW) ∧
      (∀ j : Fin devsW.length, (j : Nat) ≠ 0 →
        (devsW.get j).console = some 2000 →
        ∃ e, setconsole devsW 0 2000 = .error e)) :=
  ⟨by decide,
    setconsole_idempotent_and_conflict devsW 0 (by decide) 2000 (by decide) (by decide)⟩

end Dynagen
